import Mathlib

/-!
Verification of the subnet streaming task protocol.

This development embeds, in Lean, the core operations of the repository:

* `subnet_hypertensor/handler.py` — the Worker Handler `handle_generic_task`,
  which interprets a request payload, looks the model up in the registry,
  streams one chunk per generated fragment and finishes with a terminal
  `done` or `error` message;
* `subnet_engine/engine.py` — the Router `handle_task`, which drops
  requests without a correlation id and, for every other request, raises
  `TypeError` constructing its downstream client (the staged
  `EngineClient` accepts only `host` and `port`, not the `socket_path`
  keyword the Router passes), so its relay and error-synthesis code is
  unreachable;
* `subnet_engine/coordinator.py` — the Session `EngineClient.submit_task`,
  which submits a JSON-RPC request, consumes the streamed response lines and
  retries the whole submission on transport failure;
* `subnet_engine/framing.py` — the byte framing `send_msg` and `recv_msg`
  (4-byte big-endian length prefix around a msgpack-serialized map).

External collaborators (the Python `json` module, the msgpack library where
it encodes values outside the string/map fragment used by the protocol, the
model generator, and the transport) are modelled by parameters or by their
documented observable behavior; everything the claims exercise is translated
from the source files.
-/

/-! ## JSON-level values

Python-side structured values, as produced by `json.loads` and carried in
JSON-RPC envelopes.  Numbers are modelled by integers; the verified claims
never depend on fractional numerals. -/

inductive JValue where
  | jnull : JValue
  | jbool (b : Bool) : JValue
  | jnum (n : Int) : JValue
  | jstr (s : String) : JValue
  | jarr (elems : List JValue) : JValue
  | jobj (fields : List (String × JValue)) : JValue
deriving Repr

/-- Python `dict.get(key)`: first binding of the key, if present (objects
produced by `json.loads` never carry duplicate keys). -/
def jget (fields : List (String × JValue)) (key : String) : Option JValue :=
  match fields with
  | [] => none
  | (k, v) :: rest => if k = key then some v else jget rest key

/-- Python `key in dict`. -/
def jhas (fields : List (String × JValue)) (key : String) : Bool :=
  (jget fields key).isSome

/-- Python truthiness of a JSON value (`if not x` branches on this). -/
def pyFalsy : JValue → Bool
  | .jnull => true
  | .jbool b => !b
  | .jnum n => n == 0
  | .jstr s => s == ""
  | .jarr elems => elems.isEmpty
  | .jobj fields => fields.isEmpty

/-- Rendering of a value inside an f-string, as CPython `str()` produces it.
The object and array cases are unreachable in the verified paths: an
unhashable dict or list key makes the registry lookup raise before any
rendering happens. -/
def pyStr : JValue → String
  | .jstr s => s
  | .jnum n => toString n
  | .jbool true => "True"
  | .jbool false => "False"
  | .jnull => "None"
  | .jobj _ => ""
  | .jarr _ => ""

/-- Whether a parse result is a Python dict (`isinstance(data, dict)`). -/
def isDict : Option JValue → Bool
  | some (.jobj _) => true
  | _ => false

/-! ## Protocol data model (`subnet_engine/protocol.py`)

`TaskRequest` keeps the fields the verified operations read; the
`created_at` and `timeout` float timestamps are never consulted by any
handler and are omitted. -/

structure TaskRequest where
  request_id : String
  task_type : String
  payload : String
  metadata : List (String × String) := []
  version : Int := 1

/-- A response message on the wire: the dicts built by the Worker Handler,
discriminated by their `type` field. -/
inductive Msg where
  | chunk (request_id : JValue) (data : String) : Msg
  | done (request_id : JValue) : Msg
  | error (request_id : JValue) (message : String) : Msg
deriving Repr

/-! ## Worker Handler (`subnet_hypertensor/handler.py`)

The model registry (`subnet_app/model.py`) is a dict from name strings to
model instances; a model instance exposes `generate(prompt)`, a lazy
fragment stream that yields some fragments and then either finishes or
raises an exception carrying a message. -/

structure Model where
  gen : JValue → List String × Option String

/-- `ModelRegistry.get_model`, i.e. `self.models.get(name)` on a dict whose
keys are the registered name strings.  Looking up a dict or list key raises
`TypeError: unhashable type` in CPython, modelled by the `.error` result;
any other non-registered value is simply a miss. -/
def get_model (reg : List (String × Model)) : JValue → Except String (Option Model)
  | .jstr s => .ok (reg.lookup s)
  | .jobj _ => .error "unhashable type: 'dict'"
  | .jarr _ => .error "unhashable type: 'list'"
  | _ => .ok none

/-- Payload interpretation of `handle_generic_task` (handler.py lines 28-37):
`json.loads` is the Python standard library, modelled by its result
`parsed` (`none` encodes a `json.JSONDecodeError`).  If the parse result is
a dict, the model is its `"model"` value (default `"gpt2"`) and the prompt
its `"prompt"` value (default `""`); otherwise the defaults
`("gpt2", payload)` survive. -/
def resolvePayload (payload : String) (parsed : Option JValue) : JValue × JValue :=
  match parsed with
  | some (.jobj fields) =>
      ((jget fields "model").getD (.jstr "gpt2"),
       (jget fields "prompt").getD (.jstr ""))
  | _ => (.jstr "gpt2", .jstr payload)

/-- Driving the chunk loop `async for chunk in model_instance.generate(...)`.
`sendOk i` tells whether the i-th call to `send_response_func` succeeds;
a failing send raises an exception whose message is `sendExcMsg`.  Returns
the messages actually emitted, the next send index, and the exception (if
any) that aborted the loop. -/
def sendFrags (rid : JValue) (frags : List String) (i : Nat)
    (sendOk : Nat → Bool) (sendExcMsg : String) :
    List Msg × Nat × Option String :=
  match frags with
  | [] => ([], i, none)
  | f :: rest =>
    if sendOk i then
      let r := sendFrags rid rest (i + 1) sendOk sendExcMsg
      (.chunk rid f :: r.1, r.2)
    else ([], i + 1, some sendExcMsg)

/-- `handle_generic_task`: the full list of response messages the Worker
Handler emits for one request.  Exceptions (unknown model, generator
failure, failed send) are converted to a single `error` message; if sending
that `error` itself fails the failure is swallowed. -/
def handle_generic_task (req : TaskRequest) (reg : List (String × Model))
    (parsed : Option JValue) (sendOk : Nat → Bool) (sendExcMsg : String) :
    List Msg :=
  let rid : JValue := .jstr req.request_id
  let mp := resolvePayload req.payload parsed
  match get_model reg mp.1 with
  | .error e => if sendOk 0 then [.error rid e] else []
  | .ok none =>
      let e := "Model '" ++ pyStr mp.1 ++ "' not found."
      if sendOk 0 then [.error rid e] else []
  | .ok (some m) =>
      let g := m.gen mp.2
      let r := sendFrags rid g.1 0 sendOk sendExcMsg
      match r.2.2 with
      | some e => r.1 ++ (if sendOk r.2.1 then [.error rid e] else [])
      | none =>
        match g.2 with
        | some e => r.1 ++ (if sendOk r.2.1 then [.error rid e] else [])
        | none =>
          if sendOk r.2.1 then r.1 ++ [.done rid]
          else r.1 ++ (if sendOk (r.2.1 + 1) then [.error rid sendExcMsg] else [])

/-! ## Router (`subnet_engine/engine.py`, `handle_task`)

The inbound request is a raw msgpack dict; only its `request_id` entry is
inspected before the function crashes: line 52 constructs the downstream
client as `EngineClient(socket_path=APP_SOCKET_PATH)`, but the only
`EngineClient` in the sources (coordinator.py) accepts just `host` and
`port` — it has no `socket_path` parameter, no `connect` method and no
`_stream` attribute — so that call raises `TypeError` before the `try` at
line 54.  The relay loop and the `Proxy Error` synthesis in the `except`
clause (lines 80-103) are therefore unreachable dead code: for every
id-carrying request nothing is forwarded downstream and nothing is sent
back. -/

structure ProxyReq where
  request_id : Option JValue

structure RouterRun where
  forwards : Bool
  sent : List Msg
  raised : Bool
deriving Repr

/-- `handle_task`: requests whose `request_id` is missing or falsy are
dropped at lines 44-46 (return, nothing sent, nothing forwarded, no
exception).  Any other request reaches line 52 and raises `TypeError`
constructing `EngineClient(socket_path=...)`, outside the `try`, so the
exception escapes to the nursery: nothing is forwarded, no message is
sent, and no Proxy Error is synthesized. -/
def handle_task (req : ProxyReq) : RouterRun :=
  match req.request_id with
  | none => ⟨false, [], false⟩
  | some v =>
    if pyFalsy v then ⟨false, [], false⟩
    else ⟨false, [], true⟩

/-! ### Stream shape predicates -/

def ChunkFor (rid : JValue) (m : Msg) : Prop := ∃ d, m = .chunk rid d

def TerminalFor (rid : JValue) (m : Msg) : Prop :=
  m = .done rid ∨ ∃ e, m = .error rid e

/-- Zero or more chunks for `rid` followed by exactly one terminal message
for `rid`, with nothing after it. -/
def StreamShape (rid : JValue) (ms : List Msg) : Prop :=
  ∃ cs t, ms = cs ++ [t] ∧ (∀ c ∈ cs, ChunkFor rid c) ∧ TerminalFor rid t

/-! ## Session (`subnet_engine/coordinator.py`, `EngineClient.submit_task`)

`submit_task` builds one JSON-RPC request (with a fresh `request_id`), then
loops forever: it POSTs the request and consumes the streamed response
lines; a transport error or a stream that ends without a terminal makes it
retry the same request; a non-200 status or a terminal line ends the whole
submission.  Each received line is classified by what `json.loads` made of
it. -/

namespace EngineClient

/-- The JSON-RPC 2.0 envelope `submit_task` builds once and re-sends on
every attempt. -/
def rpc_req (request_id payload : String) : JValue :=
  .jobj [("jsonrpc", .jstr "2.0"),
         ("method", .jstr "submit_task"),
         ("params", .jobj [("task_type", .jstr "generic"),
                           ("payload", .jstr payload)]),
         ("id", .jstr request_id)]

/-- One line of the streamed response, as the `async for line` loop sees
it: falsy (skipped), unparsable JSON (logged and skipped), or a parsed
value. -/
inductive LineView where
  | blank : LineView
  | malformed : LineView
  | parsed (v : JValue) : LineView

/-- How processing one line changes the attempt: skip it, yield a fragment
to the caller, or end the submission. -/
inductive SubTerm where
  | done : SubTerm
  | rpcErr (msg : Option JValue) : SubTerm
  | resultErr (msg : Option JValue) : SubTerm
  | crash : SubTerm

inductive StepRes where
  | skip : StepRes
  | yieldData (d : JValue) : StepRes
  | term (t : SubTerm) : StepRes

/-- The Python comparison `rpc_resp.get("id") != request_id`, negated: the
`id` entry equals the string `request_id` exactly when it is that string
(a missing entry or a value of another type never equals a `str`). -/
def idMatches (fields : List (String × JValue)) (request_id : String) : Bool :=
  match jget fields "id" with
  | some (.jstr s) => s == request_id
  | _ => false

/-- The body of the receive loop for a single line.  `crash` marks the
paths where the Python code raises out of the generator (attribute or key
errors on envelopes that are not dicts where dicts are expected); every
other branch follows coordinator.py lines 66-97 literally. -/
def lineStep (request_id : String) : LineView → StepRes
  | .blank => .skip
  | .malformed => .skip
  | .parsed v =>
    match v with
    | .jobj fields =>
      if !idMatches fields request_id then .skip
      else if jhas fields "error" then
        match jget fields "error" with
        | some (.jobj ef) => .term (.rpcErr (jget ef "message"))
        | _ => .term .crash
      else
        match (jget fields "result").getD (.jobj []) with
        | .jobj rf =>
          match jget rf "type" with
          | some (.jstr "chunk") =>
            match jget rf "data" with
            | some d => .yieldData d
            | none => .term .crash
          | some (.jstr "done") => .term .done
          | some (.jstr "error") => .term (.resultErr (jget rf "message"))
          | _ => .skip
        | _ => .term .crash
    | _ => .term .crash

/-- Consuming the lines of one attempt: the fragments yielded and, if a
terminal branch was hit, how the submission ended (`none` means the stream
ran out without a terminal, so the outer loop retries). -/
def processLines (request_id : String) : List LineView → List JValue × Option SubTerm
  | [] => ([], none)
  | l :: rest =>
    match lineStep request_id l with
    | .skip => processLines request_id rest
    | .yieldData d =>
      let r := processLines request_id rest
      (d :: r.1, r.2)
    | .term t => ([], some t)

/-- One attempt of the outer `while True` loop: the POST raises a transport
error, or returns a non-200 status, or streams some lines. -/
inductive AttemptSpec where
  | transportError : AttemptSpec
  | badStatus : AttemptSpec
  | stream (lines : List LineView) : AttemptSpec

inductive SubmitEnd where
  | done : SubmitEnd
  | rpcErr (msg : Option JValue) : SubmitEnd
  | resultErr (msg : Option JValue) : SubmitEnd
  | crash : SubmitEnd
  | httpAbort : SubmitEnd

def liftEnd : SubTerm → SubmitEnd
  | .done => .done
  | .rpcErr m => .rpcErr m
  | .resultErr m => .resultErr m
  | .crash => .crash

structure SubmitTrace where
  sent : List JValue
  yields : List JValue
  outcome : Option SubmitEnd

/-- `submit_task` over a finite prefix of attempt behaviors: the requests
sent (one per attempt, always the same envelope), the fragments yielded to
the caller, and the outcome (`none` when every listed attempt failed to
reach a terminal, i.e. the loop is still retrying). -/
def submit_task (request_id payload : String) : List AttemptSpec → SubmitTrace
  | [] => ⟨[], [], none⟩
  | .transportError :: rest =>
    let r := submit_task request_id payload rest
    ⟨rpc_req request_id payload :: r.sent, r.yields, r.outcome⟩
  | .badStatus :: _ =>
    ⟨[rpc_req request_id payload], [], some .httpAbort⟩
  | .stream lines :: rest =>
    let p := processLines request_id lines
    match p.2 with
    | some t => ⟨[rpc_req request_id payload], p.1, some (liftEnd t)⟩
    | none =>
      let r := submit_task request_id payload rest
      ⟨rpc_req request_id payload :: r.sent, p.1 ++ r.yields, r.outcome⟩

/-- What the caller of the async generator can observe: the yielded
fragments, and whether the generator raised (versus ending normally).
Logging is invisible to the caller. -/
def callerView (t : SubmitTrace) : List JValue × Bool :=
  (t.yields, match t.outcome with
             | some .crash => true
             | _ => false)

/-- An attempt that ends without producing a terminal for the submission:
either the transport failed or the stream ran out of lines first.  These
are exactly the branches after which the loop retries. -/
def attemptFails (request_id : String) : AttemptSpec → Prop
  | .transportError => True
  | .badStatus => False
  | .stream lines => (processLines request_id lines).2 = none

end EngineClient

/-! ## Frame codec (`subnet_engine/framing.py`)

`send_msg` serializes a message with `msgpack.packb(obj, use_bin_type=True)`
and prepends `struct.pack("!I", len(data))`; `recv_msg` reads exactly 4
bytes, interprets them as a big-endian length, reads exactly that many more
bytes and unpacks them with `msgpack.unpackb(payload, raw=False)`, catching
a clean end of stream as `None`.

The protocol messages framed this way are string-keyed maps whose values
are strings or nested string-keyed maps.  A Python string is represented
here by its UTF-8 byte sequence (UTF-8 encoding is injective, so the
round-trip of the byte sequence is the round-trip of the string), and the
msgpack wire format for this fragment is implemented byte for byte: the
fixstr/str8/str16/str32 and fixmap/map16/map32 families, sizes measured in
bytes and entries respectively, lengths in big-endian order. -/

/-- A message value: a UTF-8 string (as its bytes) or a string-keyed map
with insertion-ordered entries, the fragment of msgpack the protocol
uses. -/
inductive MVal where
  | str (bs : List Nat) : MVal
  | map (kvs : List (List Nat × MVal)) : MVal

/-- All byte values are in range. -/
inductive MVal.wf : MVal → Prop
  | str {bs : List Nat} : (∀ b ∈ bs, b < 256) → MVal.wf (.str bs)
  | map {kvs : List (List Nat × MVal)} :
      (∀ kv ∈ kvs, ∀ b ∈ kv.1, b < 256) →
      (∀ kv ∈ kvs, MVal.wf kv.2) → MVal.wf (.map kvs)

/-- Big-endian 2-byte encoding. -/
def be16 (n : Nat) : List Nat := [n / 256 % 256, n % 256]

/-- Big-endian 4-byte encoding (`struct.pack("!I", n)`). -/
def be32 (n : Nat) : List Nat :=
  [n / 16777216 % 256, n / 65536 % 256, n / 256 % 256, n % 256]

def be16dec (hi lo : Nat) : Nat := hi * 256 + lo

def be32dec (a b c d : Nat) : Nat := ((a * 256 + b) * 256 + c) * 256 + d

/-- msgpack encoding of a `str` value of the given UTF-8 bytes: header
selected by byte length, then the bytes.  Fails (packb raises) for lengths
of 2^32 or more. -/
def packStr (bs : List Nat) : Option (List Nat) :=
  if bs.length ≤ 31 then some ((160 + bs.length) :: bs)
  else if bs.length ≤ 255 then some (217 :: bs.length :: bs)
  else if bs.length ≤ 65535 then some (218 :: be16 bs.length ++ bs)
  else if bs.length ≤ 4294967295 then some (219 :: be32 bs.length ++ bs)
  else none

/-- msgpack map header for the given entry count. -/
def mapHeader (n : Nat) : Option (List Nat) :=
  if n ≤ 15 then some [128 + n]
  else if n ≤ 65535 then some (222 :: be16 n)
  else if n ≤ 4294967295 then some (223 :: be32 n)
  else none

mutual

/-- `msgpack.packb` on the modelled fragment. -/
def packVal : MVal → Option (List Nat)
  | .str bs => packStr bs
  | .map kvs =>
    match packEntries kvs, mapHeader kvs.length with
    | some ents, some hdr => some (hdr ++ ents)
    | _, _ => none

def packEntries : List (List Nat × MVal) → Option (List Nat)
  | [] => some []
  | (k, v) :: tl =>
    match packStr k, packVal v, packEntries tl with
    | some ke, some ve, some te => some (ke ++ ve ++ te)
    | _, _, _ => none

end

/-- Read exactly `n` bytes, as `receive_exactly` does; fails if the input
is shorter. -/
def readBytes (n : Nat) (input : List Nat) : Option (List Nat × List Nat) :=
  if n ≤ input.length then some (input.take n, input.drop n) else none

/-- Parse one str-family header plus payload.  Map keys are parsed with
this as well: msgpack-python unpacks map keys under `strict_map_key`, so a
non-string key raises, which the enclosing parser reports as failure. -/
def unpackStrHeader (input : List Nat) : Option (List Nat × List Nat) :=
  match input with
  | [] => none
  | b :: rest =>
    if 160 ≤ b ∧ b ≤ 191 then readBytes (b - 160) rest
    else if b = 217 then
      match rest with
      | n :: r2 => readBytes n r2
      | [] => none
    else if b = 218 then
      match rest with
      | hi :: lo :: r2 => readBytes (be16dec hi lo) r2
      | _ => none
    else if b = 219 then
      match rest with
      | a :: c :: d :: e :: r2 => readBytes (be32dec a c d e) r2
      | _ => none
    else none

mutual

/-- `msgpack.unpackb` on the modelled fragment, with a fuel bound on the
nesting depth; each nested map costs at least one header byte, so a fuel of
the payload length always suffices.  Inputs using msgpack families outside
the protocol fragment are rejected. -/
def unpackVal : Nat → List Nat → Option (MVal × List Nat)
  | 0, _ => none
  | fuel + 1, input =>
    match unpackStrHeader input with
    | some (bs, r) => some (.str bs, r)
    | none =>
      match input with
      | [] => none
      | b :: rest =>
        if 128 ≤ b ∧ b ≤ 143 then
          match unpackEntries fuel (b - 128) rest with
          | some (es, r) => some (.map es, r)
          | none => none
        else if b = 222 then
          match rest with
          | hi :: lo :: r2 =>
            match unpackEntries fuel (be16dec hi lo) r2 with
            | some (es, r) => some (.map es, r)
            | none => none
          | _ => none
        else if b = 223 then
          match rest with
          | a :: c :: d :: e :: r2 =>
            match unpackEntries fuel (be32dec a c d e) r2 with
            | some (es, r) => some (.map es, r)
            | none => none
          | _ => none
        else none

def unpackEntries : Nat → Nat → List Nat →
    Option (List (List Nat × MVal) × List Nat)
  | _, 0, input => some ([], input)
  | 0, _ + 1, _ => none
  | fuel + 1, k + 1, input =>
    match unpackStrHeader input with
    | none => none
    | some (kb, r1) =>
      match unpackVal fuel r1 with
      | none => none
      | some (v, r2) =>
        match unpackEntries fuel k r2 with
        | none => none
        | some (es, r3) => some ((kb, v) :: es, r3)

end

/-- `send_msg`: msgpack-serialize the message and prepend the 4-byte
big-endian length of the serialized blob (`struct.pack` rejects lengths
that do not fit in 32 bits). -/
def send_msg (v : MVal) : Option (List Nat) :=
  match packVal v with
  | none => none
  | some data =>
    if data.length ≤ 4294967295 then some (be32 data.length ++ data) else none

inductive RecvResult where
  | eos : RecvResult
  | ok (v : MVal) (rest : List Nat) : RecvResult
  | err : RecvResult

/-- `recv_msg` over the byte stream contents: a stream that ends before the
4 header bytes or before `size` payload bytes yields the clean `None`
(`trio.EndOfChannel` is caught); a payload that does not unpack to exactly
one value makes `msgpack.unpackb` raise, which propagates (`err`).  The
fuel given to the unpacker is the payload length, which bounds any nesting
depth the payload can encode. -/
def recv_msg (input : List Nat) : RecvResult :=
  match input with
  | a :: b :: c :: d :: rest =>
    let size := be32dec a b c d
    if size ≤ rest.length then
      match unpackVal (rest.take size).length (rest.take size) with
      | some (v, []) => .ok v (rest.drop size)
      | some (_, _ :: _) => .err
      | none => .err
    else .eos
  | _ => .eos

/-- Substring containment, on the character lists of the strings. -/
def strContains (needle hay : String) : Prop := needle.data <:+: hay.data

/-! ## Helper lemmas -/

theorem data_append (s t : String) : (s ++ t).data = s.data ++ t.data := by
  cases s; cases t; rfl

theorem notFound_in_message (p : String) :
    strContains "not found" ("Model '" ++ p ++ "' not found.") := by
  refine ⟨"Model '".data ++ p.data ++ "' ".data, ".".data, ?_⟩
  have h : "' ".data ++ ("not found".data ++ ".".data) = "' not found.".data := rfl
  simp only [data_append, List.append_assoc, h]

theorem sendFrags_allOk (rid : JValue) (frags : List String) (i : Nat) (m : String) :
    sendFrags rid frags i (fun _ => true) m
      = (frags.map (Msg.chunk rid), i + frags.length, none) := by
  induction frags generalizing i with
  | nil => simp [sendFrags]
  | cons f rest ih => simp [sendFrags, ih]; omega

/-- With every send succeeding, the Worker Handler emits some chunks for
its request id followed by exactly one terminal message for that id. -/
theorem handler_allOk_shape (req : TaskRequest) (reg : List (String × Model))
    (parsed : Option JValue) (m : String) :
    ∃ cs t, handle_generic_task req reg parsed (fun _ => true) m = cs ++ [t] ∧
      (∀ c ∈ cs, ChunkFor (.jstr req.request_id) c) ∧
      TerminalFor (.jstr req.request_id) t := by
  unfold handle_generic_task
  cases hg : get_model reg (resolvePayload req.payload parsed).1 with
  | error e =>
    exact ⟨[], .error (.jstr req.request_id) e, by simp [hg], by simp, Or.inr ⟨e, rfl⟩⟩
  | ok mo =>
    cases mo with
    | none =>
      refine ⟨[], .error (.jstr req.request_id)
        ("Model '" ++ pyStr (resolvePayload req.payload parsed).1 ++ "' not found."), ?_, by simp, Or.inr ⟨_, rfl⟩⟩
      simp [hg]
    | some mdl =>
      cases hgen : mdl.gen (resolvePayload req.payload parsed).2 with
      | mk frags procErr =>
        cases procErr with
        | none =>
          refine ⟨frags.map (Msg.chunk (.jstr req.request_id)), .done (.jstr req.request_id), ?_, ?_, Or.inl rfl⟩
          · simp [hg, hgen, sendFrags_allOk]
          · intro c hc
            obtain ⟨d, _, rfl⟩ := List.mem_map.mp hc
            exact ⟨d, rfl⟩
        | some e =>
          refine ⟨frags.map (Msg.chunk (.jstr req.request_id)), .error (.jstr req.request_id) e, ?_, ?_, Or.inr ⟨e, rfl⟩⟩
          · simp [hg, hgen, sendFrags_allOk]
          · intro c hc
            obtain ⟨d, _, rfl⟩ := List.mem_map.mp hc
            exact ⟨d, rfl⟩

/-! ## Claim theorems: Worker Handler -/

/-- C7: a request whose resolved model is looked up and not found in the
registry makes the Worker Handler send exactly one Error message, whose
message contains "not found", and zero Chunk messages. -/
theorem unknown_model_single_error (req : TaskRequest) (reg : List (String × Model))
    (parsed : Option JValue) (m : String)
    (h : get_model reg (resolvePayload req.payload parsed).1 = .ok none) :
    handle_generic_task req reg parsed (fun _ => true) m
      = [.error (.jstr req.request_id)
          ("Model '" ++ pyStr (resolvePayload req.payload parsed).1 ++ "' not found.")] ∧
    strContains "not found"
      ("Model '" ++ pyStr (resolvePayload req.payload parsed).1 ++ "' not found.") := by
  constructor
  · unfold handle_generic_task
    simp [h]
  · exact notFound_in_message _

/-- Witness for C7 at a concrete request: an empty registry misses the
default model `gpt2`. -/
theorem unknown_model_single_error_witness :
    get_model [] (resolvePayload "hello" none).1 = .ok none ∧
    handle_generic_task ⟨"r1", "generic", "hello", [], 1⟩ [] none (fun _ => true) "snd"
      = [.error (.jstr "r1") "Model 'gpt2' not found."] :=
  ⟨rfl, (unknown_model_single_error ⟨"r1", "generic", "hello", [], 1⟩ [] none "snd" rfl).1⟩

/-- C8: when the resolved model exists and its generator yields fragments
and finishes without raising, the Worker Handler emits one Chunk per
fragment, in order and carrying the fragment as data, then exactly one
Done (an empty fragment list gives zero Chunks and one Done). -/
theorem fragments_to_chunks_then_done (req : TaskRequest) (reg : List (String × Model))
    (parsed : Option JValue) (m : String) (mdl : Model) (frags : List String)
    (h : get_model reg (resolvePayload req.payload parsed).1 = .ok (some mdl))
    (hgen : mdl.gen (resolvePayload req.payload parsed).2 = (frags, none)) :
    handle_generic_task req reg parsed (fun _ => true) m
      = frags.map (Msg.chunk (.jstr req.request_id)) ++ [.done (.jstr req.request_id)] := by
  unfold handle_generic_task
  simp [h, hgen, sendFrags_allOk]

/-- Witness for C8 at a concrete request, covering both a two-fragment
stream and the empty stream. -/
theorem fragments_to_chunks_then_done_witness :
    handle_generic_task ⟨"r2", "generic", "hi", [], 1⟩
        [("gpt2", ⟨fun _ => (["a", "b"], none)⟩)] none (fun _ => true) "snd"
      = [.chunk (.jstr "r2") "a", .chunk (.jstr "r2") "b", .done (.jstr "r2")] ∧
    handle_generic_task ⟨"r3", "generic", "", [], 1⟩
        [("gpt2", ⟨fun _ => ([], none)⟩)] none (fun _ => true) "snd"
      = [.done (.jstr "r3")] := by
  constructor
  · exact fragments_to_chunks_then_done ⟨"r2", "generic", "hi", [], 1⟩
      [("gpt2", ⟨fun _ => (["a", "b"], none)⟩)] none "snd" ⟨fun _ => (["a", "b"], none)⟩
      ["a", "b"] rfl rfl
  · exact fragments_to_chunks_then_done ⟨"r3", "generic", "", [], 1⟩
      [("gpt2", ⟨fun _ => ([], none)⟩)] none "snd" ⟨fun _ => ([], none)⟩ [] rfl rfl

/-- C10: the structured payload interpretation is taken exactly when the
parse result is a dict, with `"model"` defaulting to `"gpt2"` and
`"prompt"` defaulting to `""`; any other parse result leaves the model
`"gpt2"` and the whole payload as the prompt, and the handler then behaves
exactly as on the equivalent structured payload. -/
theorem payload_interpretation (payload : String) (fields : List (String × JValue))
    (parsed : Option JValue) (req : TaskRequest) (reg : List (String × Model))
    (sendOk : Nat → Bool) (m : String) (h : isDict parsed = false) :
    resolvePayload payload (some (.jobj fields))
      = ((jget fields "model").getD (.jstr "gpt2"),
         (jget fields "prompt").getD (.jstr "")) ∧
    resolvePayload payload parsed = (.jstr "gpt2", .jstr payload) ∧
    handle_generic_task req reg parsed sendOk m
      = handle_generic_task req reg
          (some (.jobj [("model", .jstr "gpt2"), ("prompt", .jstr req.payload)]))
          sendOk m := by
  refine ⟨rfl, ?_, ?_⟩
  · cases parsed with
    | none => rfl
    | some v => cases v <;> simp_all [isDict, resolvePayload]
  · have hr : resolvePayload req.payload parsed = (.jstr "gpt2", .jstr req.payload) := by
      cases parsed with
      | none => rfl
      | some v => cases v <;> simp_all [isDict, resolvePayload]
    have hr2 : resolvePayload req.payload
        (some (.jobj [("model", .jstr "gpt2"), ("prompt", .jstr req.payload)]))
        = (.jstr "gpt2", .jstr req.payload) := rfl
    unfold handle_generic_task
    rw [hr, hr2]

/-- Witness for C10 at a payload that parses to a non-dict JSON value. -/
theorem payload_interpretation_witness :
    isDict (some (.jnum 3)) = false ∧
    resolvePayload "3" (some (.jnum 3)) = (.jstr "gpt2", .jstr "3") :=
  ⟨rfl, (payload_interpretation "3" [] (some (.jnum 3)) ⟨"r", "generic", "3", [], 1⟩
    [] (fun _ => true) "snd" rfl).2.1⟩

/-! ## Claim theorems: Router -/

/-- C9: a request with no usable correlation id (`request_id` missing or
the empty string) is dropped by the Router at engine.py lines 44-46,
before the broken client construction: nothing is forwarded downstream,
no message is ever sent, and no exception is raised. -/
theorem router_drops_without_request_id :
    handle_task ⟨none⟩ = ⟨false, [], false⟩ ∧
    handle_task ⟨some (.jstr "")⟩ = ⟨false, [], false⟩ :=
  ⟨rfl, rfl⟩

/-- C1 (code bug): with transmissions succeeding, the Worker Handler does
emit, for its request id, zero or more Chunks followed by exactly one
terminal message and nothing after it; but the Router relays none of it:
for every id-carrying request `handle_task` raises `TypeError`
constructing `EngineClient(socket_path=...)` (engine.py line 52, outside
the `try`), so the inbound caller receives the empty sequence — in
particular zero terminal messages, not exactly one. -/
theorem handler_streams_but_router_relays_nothing (req : TaskRequest)
    (reg : List (String × Model)) (parsed : Option JValue) (m : String)
    (h : req.request_id ≠ "") :
    StreamShape (.jstr req.request_id)
      (handle_generic_task req reg parsed (fun _ => true) m) ∧
    handle_task ⟨some (.jstr req.request_id)⟩ = ⟨false, [], true⟩ := by
  constructor
  · exact handler_allOk_shape req reg parsed m
  · have hfalsy : pyFalsy (.jstr req.request_id) = false := by
      simp [pyFalsy, h]
    simp [handle_task, hfalsy]

/-- Witness for C1 at a concrete request and registry. -/
theorem handler_streams_but_router_relays_nothing_witness :
    ("r4" : String) ≠ "" ∧
    StreamShape (.jstr "r4")
      (handle_generic_task ⟨"r4", "generic", "p", [], 1⟩
        [("gpt2", ⟨fun _ => (["x"], none)⟩)] none (fun _ => true) "snd") ∧
    handle_task ⟨some (.jstr "r4")⟩ = ⟨false, [], true⟩ :=
  ⟨by decide,
   (handler_streams_but_router_relays_nothing ⟨"r4", "generic", "p", [], 1⟩
     [("gpt2", ⟨fun _ => (["x"], none)⟩)] none "snd" (by decide)).1,
   (handler_streams_but_router_relays_nothing ⟨"r4", "generic", "p", [], 1⟩
     [("gpt2", ⟨fun _ => (["x"], none)⟩)] none "snd" (by decide)).2⟩

/-- C2 (code bug): at an id-carrying request whose outbound hop fails (it
is never even attempted), the Router is supposed to send exactly one
Error describing the proxy failure; instead `handle_task` raises
`TypeError` at `EngineClient(socket_path=...)` (engine.py line 52) before
the `try` whose `except` clause would synthesize the Proxy Error, so it
sends nothing at all: the inbound caller receives zero terminal
messages. -/
theorem proxy_failure_sends_no_error :
    handle_task ⟨some (.jstr "r5")⟩ = ⟨false, [], true⟩ ∧
    (handle_task ⟨some (.jstr "r5")⟩).sent = [] :=
  ⟨rfl, rfl⟩

/-! ## Claim theorems: Session -/

namespace EngineClient

theorem processLines_append (rid : String) (pre post : List LineView) :
    processLines rid (pre ++ post)
      = match processLines rid pre with
        | (ys, none) => (ys ++ (processLines rid post).1, (processLines rid post).2)
        | (ys, some t) => (ys, some t) := by
  induction pre with
  | nil => simp [processLines]
  | cons l tl ih =>
    simp only [List.cons_append, processLines]
    cases hstep : lineStep rid l with
    | skip => simpa only [List.append_eq] using ih
    | yieldData d =>
      simp only [List.append_eq, ih]
      cases hp : processLines rid tl with
      | mk ys o => cases o <;> simp
    | term t => rfl

theorem processLines_skip_middle (rid : String) (L : LineView)
    (hL : lineStep rid L = .skip) (pre post : List LineView) :
    processLines rid (pre ++ L :: post) = processLines rid (pre ++ post) := by
  have h : processLines rid (L :: post) = processLines rid post := by
    simp [processLines, hL]
  rw [processLines_append rid pre (L :: post), h, ← processLines_append rid pre post]

theorem processLines_term_append (rid : String) (pre : List LineView)
    (L : LineView) (post : List LineView) (ys : List JValue) (e : SubTerm)
    (hpre : processLines rid pre = (ys, none)) (hL : lineStep rid L = .term e) :
    processLines rid (pre ++ L :: post) = (ys, some e) := by
  have h : processLines rid (L :: post) = ([], some e) := by
    simp [processLines, hL]
  rw [processLines_append rid pre (L :: post), hpre, h]
  simp

/-- C6: a received envelope whose correlation id does not match the one
the Session just sent is discarded: the receive loop continues exactly as
if the envelope had not been received, with no effect on the fragments
yielded or on how the sequence ends. -/
theorem foreign_id_discarded (rid : String) (fields : List (String × JValue))
    (pre post : List LineView) (h : idMatches fields rid = false) :
    processLines rid (pre ++ .parsed (.jobj fields) :: post)
      = processLines rid (pre ++ post) := by
  apply processLines_skip_middle
  simp [lineStep, h]

/-- Witness for C6: an envelope for a different id, inserted between two
lines of the own stream, changes nothing. -/
theorem foreign_id_discarded_witness :
    idMatches [("id", .jstr "other")] "r7" = false ∧
    processLines "r7"
      ([.parsed (.jobj [("id", .jstr "r7"),
          ("result", .jobj [("type", .jstr "chunk"), ("data", .jstr "x")])])]
        ++ .parsed (.jobj [("id", .jstr "other")])
        :: [.parsed (.jobj [("id", .jstr "r7"),
          ("result", .jobj [("type", .jstr "done")])])])
      = processLines "r7"
        ([.parsed (.jobj [("id", .jstr "r7"),
            ("result", .jobj [("type", .jstr "chunk"), ("data", .jstr "x")])])]
          ++ [.parsed (.jobj [("id", .jstr "r7"),
            ("result", .jobj [("type", .jstr "done")])])]) :=
  ⟨rfl, foreign_id_discarded "r7" [("id", .jstr "other")] _ _ rfl⟩

/-- C5: while no attempt reaches a terminal (transport failures and
streams that end early), the Session keeps resubmitting, sending on every
attempt exactly the JSON-RPC envelope built once at the start — same
correlation id — with no bound on the number of attempts (the attempt list
is arbitrary). -/
theorem resubmit_same_request (rid payload : String) (atts : List AttemptSpec)
    (h : ∀ a ∈ atts, attemptFails rid a) :
    (submit_task rid payload atts).sent
      = List.replicate atts.length (rpc_req rid payload) ∧
    (submit_task rid payload atts).outcome = none := by
  induction atts with
  | nil => exact ⟨rfl, rfl⟩
  | cons a tl ih =>
    have ha := h a (List.mem_cons_self a tl)
    have htl := ih (fun x hx => h x (List.mem_cons_of_mem a hx))
    cases a with
    | transportError =>
      simp only [submit_task, List.length_cons, List.replicate_succ]
      exact ⟨by rw [htl.1], htl.2⟩
    | badStatus => exact absurd ha (by simp [attemptFails])
    | stream lines =>
      have hfail : (processLines rid lines).2 = none := ha
      simp only [submit_task, List.length_cons, List.replicate_succ, hfail]
      exact ⟨by rw [htl.1], htl.2⟩

/-- Witness for C5: two failed attempts (a transport error, then a stream
that ends without a terminal) produce two identical sends and no outcome. -/
theorem resubmit_same_request_witness :
    (∀ a ∈ ([.transportError, .stream []] : List AttemptSpec), attemptFails "r8" a) ∧
    (submit_task "r8" "pay" [.transportError, .stream []]).sent
      = List.replicate 2 (rpc_req "r8" "pay") :=
  ⟨by intro a ha
      simp only [List.mem_cons, List.not_mem_nil, or_false] at ha
      rcases ha with rfl | rfl
      · exact trivial
      · exact rfl,
   (resubmit_same_request "r8" "pay" [.transportError, .stream []]
      (by intro a ha
          simp only [List.mem_cons, List.not_mem_nil, or_false] at ha
          rcases ha with rfl | rfl
          · exact trivial
          · exact rfl)).1⟩

/-- C3 counterexample: a run whose stream ends with Done and a run whose
stream ends with an Error message for the own id give the caller exactly
the same observation — no fragments and a normally ended generator — so
the caller cannot distinguish the Error outcome from a successful Done;
the failure is only logged, never surfaced. -/
theorem error_outcome_indistinguishable_counterexample :
    callerView (submit_task "r9" "pay"
        [.stream [.parsed (.jobj [("id", .jstr "r9"),
          ("result", .jobj [("type", .jstr "done")])])]])
      = callerView (submit_task "r9" "pay"
        [.stream [.parsed (.jobj [("id", .jstr "r9"),
          ("result", .jobj [("type", .jstr "error"),
                            ("message", .jstr "boom")])])]]) ∧
    (submit_task "r9" "pay"
        [.stream [.parsed (.jobj [("id", .jstr "r9"),
          ("result", .jobj [("type", .jstr "done")])])]]).outcome
      = some .done ∧
    (submit_task "r9" "pay"
        [.stream [.parsed (.jobj [("id", .jstr "r9"),
          ("result", .jobj [("type", .jstr "error"),
                            ("message", .jstr "boom")])])]]).outcome
      = some (.resultErr (some (.jstr "boom"))) :=
  ⟨rfl, rfl, rfl⟩

/-- C3 amended: on an Error terminal message or a JSON-RPC error envelope
for its own correlation id, the Session terminates the lazy sequence at
once — no fragment after it is yielded — and records the failure message
in the log; but it does not surface the failure to the caller: the
generator ends normally, indistinguishable from a Done termination. -/
theorem error_terminates_sequence (rid payload : String)
    (pre post : List LineView) (L : LineView) (ys : List JValue)
    (e : SubTerm) (m : Option JValue)
    (hpre : processLines rid pre = (ys, none))
    (hL : lineStep rid L = .term e)
    (he : e = .rpcErr m ∨ e = .resultErr m) :
    submit_task rid payload [.stream (pre ++ L :: post)]
      = ⟨[rpc_req rid payload], ys, some (liftEnd e)⟩ ∧
    callerView (submit_task rid payload [.stream (pre ++ L :: post)])
      = (ys, false) := by
  have hp := processLines_term_append rid pre L post ys e hpre hL
  have h1 : submit_task rid payload [.stream (pre ++ L :: post)]
      = ⟨[rpc_req rid payload], ys, some (liftEnd e)⟩ := by
    simp [submit_task, hp]
  refine ⟨h1, ?_⟩
  rw [h1]
  rcases he with rfl | rfl <;> rfl

/-- Witness for the amended C3 at a concrete error envelope. -/
theorem error_terminates_sequence_witness :
    lineStep "ra" (.parsed (.jobj [("id", .jstr "ra"),
        ("result", .jobj [("type", .jstr "error"), ("message", .jstr "boom")])]))
      = .term (.resultErr (some (.jstr "boom"))) ∧
    callerView (submit_task "ra" "pay"
        [.stream ([] ++ .parsed (.jobj [("id", .jstr "ra"),
          ("result", .jobj [("type", .jstr "error"), ("message", .jstr "boom")])])
          :: [.parsed (.jobj [("id", .jstr "ra"),
            ("result", .jobj [("type", .jstr "chunk"), ("data", .jstr "late")])])])])
      = ([], false) :=
  ⟨rfl, (error_terminates_sequence "ra" "pay" []
    [.parsed (.jobj [("id", .jstr "ra"),
      ("result", .jobj [("type", .jstr "chunk"), ("data", .jstr "late")])])]
    (.parsed (.jobj [("id", .jstr "ra"),
      ("result", .jobj [("type", .jstr "error"), ("message", .jstr "boom")])]))
    [] (.resultErr (some (.jstr "boom"))) (some (.jstr "boom"))
    rfl rfl (Or.inr rfl)).2⟩

end EngineClient

/-! ## Claim theorems: frame codec -/

theorem readBytes_append (bs rest : List Nat) :
    readBytes bs.length (bs ++ rest) = some (bs, rest) := by
  simp [readBytes, List.take_left, List.drop_left]

theorem unpackStrHeader_packStr (bs out rest : List Nat) (h : packStr bs = some out) :
    unpackStrHeader (out ++ rest) = some (bs, rest) := by
  unfold packStr at h
  split_ifs at h with h1 h2 h3 h4 <;> simp only [Option.some.injEq] at h <;> subst h
  · simp only [List.cons_append, unpackStrHeader]
    rw [if_pos ⟨by omega, by omega⟩]
    have e : 160 + bs.length - 160 = bs.length := by omega
    rw [e, readBytes_append]
  · simp only [List.cons_append, unpackStrHeader]
    rw [if_neg (by omega)]
    simp only [if_true, readBytes_append]
  · simp only [be16, List.cons_append, List.append_assoc, unpackStrHeader]
    rw [if_neg (by omega), if_neg (by omega)]
    have e : be16dec (bs.length / 256 % 256) (bs.length % 256) = bs.length := by
      unfold be16dec; omega
    simp only [if_true, List.nil_append, e, readBytes_append]
  · simp only [be32, List.cons_append, List.append_assoc, unpackStrHeader]
    rw [if_neg (by omega), if_neg (by omega), if_neg (by omega)]
    have e : be32dec (bs.length / 16777216 % 256) (bs.length / 65536 % 256)
        (bs.length / 256 % 256) (bs.length % 256) = bs.length := by
      unfold be32dec; omega
    simp only [if_true, List.nil_append, e, readBytes_append]

theorem packStr_pos (bs out : List Nat) (h : packStr bs = some out) : 0 < out.length := by
  unfold packStr at h
  split_ifs at h <;> simp only [Option.some.injEq] at h <;> subst h <;> simp [be16, be32]

theorem mapHeader_pos (n : Nat) (out : List Nat) (h : mapHeader n = some out) :
    0 < out.length := by
  unfold mapHeader at h
  split_ifs at h <;> simp only [Option.some.injEq] at h <;> subst h <;> simp [be16, be32]

theorem packVal_pos (v : MVal) (out : List Nat) (h : packVal v = some out) :
    0 < out.length := by
  cases v with
  | str bs => exact packStr_pos bs out h
  | map kvs =>
    unfold packVal at h
    cases he : packEntries kvs with
    | none => rw [he] at h; exact absurd h (by simp)
    | some ents =>
      cases hm : mapHeader kvs.length with
      | none => rw [he, hm] at h; exact absurd h (by simp)
      | some hdr =>
        rw [he, hm] at h
        simp only [Option.some.injEq] at h
        subst h
        have := mapHeader_pos kvs.length hdr hm
        simp only [List.length_append]
        omega

theorem unpackStrHeader_map_none (b : Nat) (l : List Nat)
    (hb : b ≤ 143 ∨ b = 222 ∨ b = 223) : unpackStrHeader (b :: l) = none := by
  simp only [unpackStrHeader]
  rw [if_neg (by omega), if_neg (by omega), if_neg (by omega), if_neg (by omega)]

mutual

theorem unpackVal_packVal (v : MVal) (out : List Nat) (h : packVal v = some out)
    (fuel : Nat) (rest : List Nat) (hf : out.length ≤ fuel) :
    unpackVal fuel (out ++ rest) = some (v, rest) := by
  cases v with
  | str bs =>
    have hpos := packStr_pos bs out h
    cases fuel with
    | zero => omega
    | succ f =>
      simp only [unpackVal, unpackStrHeader_packStr bs out rest h]
  | map kvs =>
    unfold packVal at h
    cases he : packEntries kvs with
    | none => rw [he] at h; exact absurd h (by simp)
    | some ents =>
      cases hm : mapHeader kvs.length with
      | none => rw [he, hm] at h; exact absurd h (by simp)
      | some hdr =>
        rw [he, hm] at h
        simp only [Option.some.injEq] at h
        subst h
        unfold mapHeader at hm
        split_ifs at hm with h1 h2 h3 <;> simp only [Option.some.injEq] at hm <;>
          subst hm
        · simp only [List.length_append, List.length_cons, List.length_nil] at hf
          cases fuel with
          | zero => omega
          | succ f =>
            have hsh := unpackStrHeader_map_none (128 + kvs.length) (ents ++ rest)
              (Or.inl (by omega))
            have hre := unpackEntries_packEntries kvs ents he f rest (by omega)
            simp only [List.cons_append, List.nil_append, unpackVal, hsh]
            rw [if_pos (⟨by omega, by omega⟩ :
              128 ≤ 128 + kvs.length ∧ 128 + kvs.length ≤ 143)]
            have e : 128 + kvs.length - 128 = kvs.length := by omega
            simp only [e, hre]
        · simp only [be16, List.length_append, List.length_cons, List.length_nil] at hf
          cases fuel with
          | zero => omega
          | succ f =>
            have hsh := unpackStrHeader_map_none 222
              (kvs.length / 256 % 256 :: kvs.length % 256 :: (ents ++ rest))
              (Or.inr (Or.inl rfl))
            have hre := unpackEntries_packEntries kvs ents he f rest (by omega)
            have e : be16dec (kvs.length / 256 % 256) (kvs.length % 256)
                = kvs.length := by unfold be16dec; omega
            simp only [be16, List.cons_append, List.nil_append, unpackVal, hsh]
            rw [if_neg (by omega)]
            simp only [if_true, e, hre]
        · simp only [be32, List.length_append, List.length_cons, List.length_nil] at hf
          cases fuel with
          | zero => omega
          | succ f =>
            have hsh := unpackStrHeader_map_none 223
              (kvs.length / 16777216 % 256 :: kvs.length / 65536 % 256 ::
                kvs.length / 256 % 256 :: kvs.length % 256 :: (ents ++ rest))
              (Or.inr (Or.inr rfl))
            have hre := unpackEntries_packEntries kvs ents he f rest (by omega)
            have e : be32dec (kvs.length / 16777216 % 256) (kvs.length / 65536 % 256)
                (kvs.length / 256 % 256) (kvs.length % 256) = kvs.length := by
              unfold be32dec; omega
            simp only [be32, List.cons_append, List.nil_append, unpackVal, hsh]
            rw [if_neg (by omega), if_neg (by omega)]
            simp only [if_true, e, hre]

theorem unpackEntries_packEntries (kvs : List (List Nat × MVal)) (out : List Nat)
    (h : packEntries kvs = some out) (fuel : Nat) (rest : List Nat)
    (hf : out.length ≤ fuel) :
    unpackEntries fuel kvs.length (out ++ rest) = some (kvs, rest) := by
  cases kvs with
  | nil =>
    unfold packEntries at h
    simp only [Option.some.injEq] at h
    subst h
    simp only [List.length_nil, List.nil_append]
    cases fuel <;> rfl
  | cons kv tl =>
    obtain ⟨k, v⟩ := kv
    unfold packEntries at h
    cases hk : packStr k with
    | none => rw [hk] at h; exact absurd h (by simp)
    | some ke =>
      cases hv : packVal v with
      | none => rw [hk, hv] at h; exact absurd h (by simp)
      | some ve =>
        cases ht : packEntries tl with
        | none => rw [hk, hv, ht] at h; exact absurd h (by simp)
        | some te =>
          rw [hk, hv, ht] at h
          simp only [Option.some.injEq] at h
          subst h
          have hkpos := packStr_pos k ke hk
          have hvpos := packVal_pos v ve hv
          simp only [List.length_append] at hf
          cases fuel with
          | zero => omega
          | succ f =>
            have hsh := unpackStrHeader_packStr k ke (ve ++ (te ++ rest)) hk
            have hv2 := unpackVal_packVal v ve hv f (te ++ rest) (by omega)
            have ht2 := unpackEntries_packEntries tl te ht f rest (by omega)
            show unpackEntries (f + 1) ((k, v) :: tl).length ((ke ++ ve ++ te) ++ rest)
              = some ((k, v) :: tl, rest)
            simp only [List.length_cons, List.append_assoc, unpackEntries,
              hsh, hv2, ht2]

end

/-- C4: framing then unframing is the identity on protocol messages: for
every string-keyed message (nested maps and UTF-8 strings, given by their
bytes) that `send_msg` can serialize, `recv_msg` on the produced bytes
returns exactly the original message and consumes the whole frame. -/
theorem send_recv_roundtrip (v : MVal) (bs : List Nat) (hwf : MVal.wf v)
    (h : send_msg v = some bs) : recv_msg bs = .ok v [] := by
  unfold send_msg at h
  cases hp : packVal v with
  | none => simp [hp] at h
  | some data =>
    simp only [hp] at h
    split_ifs at h with hlen
    · simp only [Option.some.injEq] at h
      subst h
      have hun := unpackVal_packVal v data hp data.length [] (le_refl _)
      rw [List.append_nil] at hun
      have e : be32dec (data.length / 16777216 % 256) (data.length / 65536 % 256)
          (data.length / 256 % 256) (data.length % 256) = data.length := by
        unfold be32dec; omega
      simp only [be32, List.cons_append, List.nil_append, recv_msg, e]
      rw [if_pos (le_refl data.length)]
      simp only [List.take_length, List.drop_length, hun]

/-- Witness for C4 at a concrete two-entry nested message. -/
theorem send_recv_roundtrip_witness :
    MVal.wf (.map [([104, 105], .str [33]), ([110], .map [([97], .str [])])]) ∧
    send_msg (.map [([104, 105], .str [33]), ([110], .map [([97], .str [])])])
      = some [0, 0, 0, 12, 130, 162, 104, 105, 161, 33, 161, 110, 129, 161, 97, 160] ∧
    recv_msg [0, 0, 0, 12, 130, 162, 104, 105, 161, 33, 161, 110, 129, 161, 97, 160]
      = .ok (.map [([104, 105], .str [33]), ([110], .map [([97], .str [])])]) [] := by
  have hwf : MVal.wf (.map [([104, 105], .str [33]), ([110], .map [([97], .str [])])]) := by
    refine .map ?_ ?_
    · intro kv hkv
      simp only [List.mem_cons, List.not_mem_nil, or_false] at hkv
      rcases hkv with rfl | rfl <;> decide
    · intro kv hkv
      simp only [List.mem_cons, List.not_mem_nil, or_false] at hkv
      rcases hkv with rfl | rfl
      · exact .str (by decide)
      · refine .map ?_ ?_
        · intro kv2 hkv2
          simp only [List.mem_cons, List.not_mem_nil, or_false] at hkv2
          rcases hkv2 with rfl
          decide
        · intro kv2 hkv2
          simp only [List.mem_cons, List.not_mem_nil, or_false] at hkv2
          rcases hkv2 with rfl
          exact .str (by decide)
  have hs : send_msg (.map [([104, 105], .str [33]), ([110], .map [([97], .str [])])])
      = some [0, 0, 0, 12, 130, 162, 104, 105, 161, 33, 161, 110, 129, 161, 97, 160] := by
    simp [send_msg, packVal, packEntries, packStr, mapHeader, be32]
  exact ⟨hwf, hs, send_recv_roundtrip _ _ hwf hs⟩
